import Mathlib

/-
  Verification development for src/lib/server.js of the fastified repository.

  The file embeds the route loader (function routeLoader, lines 108-184) as
  executable Lean definitions and settles the frozen claims about it:
  the upward middleware walk (lines 119-141), the handler invocation check
  (lines 142-180), and the per-method schema interception (lines 150-174).

  Machine-level conventions of the embedding:
  - a filesystem directory is a list of path segments from the root
    (the root itself is the empty list); path.resolve with a chain of
    parent steps clamps at the root, so going k levels up is List.take
    of (length - k) with truncated Nat subtraction;
  - JavaScript values are modelled only as far as the loader inspects
    them: truthiness and the Symbol.toStringTag attribute; per ECMAScript,
    only async functions among the shapes used here expose a tag
    ("AsyncFunction"); plain functions and plain objects expose none;
  - the module scope of server.js binds exactly the identifiers required
    at lines 4-18 plus the declared functions; evaluating a free
    identifier is a ReferenceError, modelled through the Except monad.
    The source never requires the fs module, so the embedding threads the
    list of bound identifiers through every operation that evaluates fs;
    runs with the identifier fs added to scope model the evidently
    intended binding (const fs = require(..)) and are marked as such
    where used.
-/

namespace Fastified

/-- JavaScript runtime values, as far as the route loader inspects them:
the loader only ever asks for truthiness and for Symbol.toStringTag, so the
function shapes carry an id to keep distinct functions distinguishable. -/
inductive JSValue where
  | undef
  | nullv
  | boolv (b : Bool)
  | numv (n : Int)
  | strv (s : String)
  | syncFun (id : Nat)
  | asyncFun (id : Nat)
  | objv (id : Nat)
deriving DecidableEq

/-- ECMAScript truthiness of a value. -/
def truthy : JSValue → Bool
  | .undef => false
  | .nullv => false
  | .boolv b => b
  | .numv n => n != 0
  | .strv s => s != ""
  | .syncFun _ => true
  | .asyncFun _ => true
  | .objv _ => true

/-- Symbol.toStringTag of a value. Per ECMAScript only the async function
prototype defines the tag among the shapes the loader meets: a plain
function object inherits no Symbol.toStringTag, so reading the attribute
yields undefined, modelled as none. -/
def toStringTag : JSValue → Option String
  | .asyncFun _ => some "AsyncFunction"
  | _ => none

/-- Strict equality of a possibly-undefined tag with a string literal,
as in line 130: undefined === s is false for every string s. -/
def tagEq : Option String → String → Bool
  | some s, t => s == t
  | none, _ => false

/-- Array.prototype.includes applied to a possibly-undefined tag, as in
line 145: undefined is not an element of a list of strings. -/
def listIncludesTag (l : List String) : Option String → Bool
  | some s => l.contains s
  | none => false

/-- JSON values as far as the shallow schema merge inspects them: the
spread at line 165 copies values opaquely, so the structure below the top
level of a schema never matters; numbers and strings cover every claim. -/
inductive JVal where
  | jnum (n : Int)
  | jstr (s : String)
deriving DecidableEq

/-- A JavaScript object as an insertion-ordered field list. -/
abbrev JObj := List (String × JVal)

/-- Property lookup on an object: the first field with the given key. -/
def objGet (o : JObj) (k : String) : Option JVal :=
  (o.find? (fun kv => kv.1 == k)).map (fun kv => kv.2)

/-- ECMAScript object spread of two objects, the literal at line 165:
the fields of the first operand appear first in insertion order, each
overridden by the value of the second operand on a shared key, followed by
the fields only the second operand has. The SECOND operand wins conflicts. -/
def spread2 (a b : JObj) : JObj :=
  a.map (fun kv => (kv.1, (objGet b kv.1).getD kv.2))
    ++ b.filter (fun kv => (objGet a kv.1).isNone)

/-- Extensional equality of objects: the same value at every key. -/
def objEquiv (a b : JObj) : Prop := ∀ k, objGet a k = objGet b k

/-- A directory as its segment list from the filesystem root. A handler
file path is its directory segments followed by the file name. -/
abbrev Path := List String

/-- path.dirname, and also path.resolve of one parent step from a file. -/
def parentDir (p : Path) : Path := p.dropLast

/-- path.resolve of k parent steps from p: resolution clamps at the root,
which truncated Nat subtraction models exactly. -/
def upDir (p : Path) (k : Nat) : Path := p.take (p.length - k)

/-- path.basename of a directory; path.basename of the root is the empty
string. -/
def dirBasename (p : Path) : String := (p.getLast?).getD ""

/-- Line 123 at iteration k (k = up.length, starting at 1):
path.basename(path.resolve(handler, up.join(""))). Resolving k parent
steps against the handler FILE path lands k levels above the file, so at
k = 1 this is the name of the directory containing the handler. -/
def walkBasename (handler : Path) (k : Nat) : String :=
  dirBasename (upDir handler k)

/-- Line 124 at iteration k: the directory of the middleware glob,
path.resolve(path.dirname(handler), up.join("")). Resolving k parent
steps against the DIRECTORY of the handler lands one level higher than
the basename of line 123: at k = 1 this is the parent of the directory
containing the handler, not that directory itself. -/
def lookupDir (handler : Path) (k : Nat) : Path :=
  upDir (parentDir handler) k

/-- A loaded module as the loader sees it after await import: the value of
its default property (undefined when absent) and the namespace object
itself. -/
structure JSModule where
  defaultExport : JSValue
  namespaceObj : JSValue
deriving DecidableEq

/-- Lines 128 and 143: handle = module.default or else the module itself
(JavaScript or-else on truthiness; a namespace object is always truthy). -/
def resolveEntry (m : JSModule) : JSValue :=
  if truthy m.defaultExport then m.defaultExport else m.namespaceObj

/-- Line 131: the fastify-plugin wrapper fp(handle) pushed on the chain. -/
structure FpPlugin where
  handle : JSValue
deriving DecidableEq

/-- One snapshot of the filesystem as the loader reads it.
middlewareAt d is the module behind the single glob match for the pattern
middleware.* in directory d when one exists (line 124); glob and
fs.existsSync read the same snapshot, so a matched path exists on disk
(line 126). schemaJson d describes the file schema.json in directory d:
none when absent, some (Except.error ()) when present but not parseable
as JSON, some (Except.ok o) when it parses to the object o. -/
structure FS where
  middlewareAt : Path → Option JSModule
  schemaJson : Path → Option (Except Unit JObj)

/-- The identifiers bound at module scope of src/lib/server.js: the
const requires at lines 4-18 plus the declared function routeLoader and
the exported bootstrap. The identifier fs is NOT among them: the module
never requires fs. -/
def moduleBindings : List String :=
  ["fastify", "fp", "glob", "fastifySensible", "fastifyAccepts",
   "fastifyCookie", "fastifyCors", "fastifyEtag", "fastifyRequestContext",
   "path", "uuid", "addErrors", "addFormats", "addKeywords", "logger",
   "routeLoader", "bootstrap"]

/-- Errors the embedded code can raise: evaluating an unbound identifier
(ReferenceError) or an exception thrown and caught locally (the JSON.parse
failure inside the try of lines 163-168). -/
inductive JSError where
  | referenceError (name : String)
  | thrown
deriving DecidableEq

/-- Evaluating an identifier in a scope: unbound means ReferenceError. -/
def resolveIdent (env : List String) (x : String) : Except JSError Unit :=
  if x ∈ env then .ok () else .error (.referenceError x)

/-- Outcome of one iteration of the while loop of lines 122-140:
stop is the break of line 138 (no glob match, boundary check skipped);
collectStop is the break of line 135 (glob match, basename equals the
boundary marker, checked after the push); collectContinue is line 137
(glob match, walk moves one level up). The carried entry is the plugin
pushed at line 131, none when the async-function check rejected it. -/
inductive IterOutcome where
  | stop
  | collectStop (entry : Option FpPlugin)
  | collectContinue (entry : Option FpPlugin)
deriving DecidableEq

/-- One iteration of the while loop at lines 122-140, at up.length = k,
with env the identifiers in scope. When the glob of line 124 matches,
line 126 evaluates the identifier fs before anything else; in the source
scope that identifier is unbound and the iteration aborts with a
ReferenceError. With fs in scope, existsSync is true for the matched path
(same snapshot), the module is imported, its entry resolved (line 128) and
pushed as fp(handle) only when truthy with tag AsyncFunction (lines
129-131); then the boundary check of line 135 runs. -/
def walkIter (env : List String) (fsys : FS) (handler : Path) (k : Nat) :
    Except JSError IterOutcome :=
  match fsys.middlewareAt (lookupDir handler k) with
  | none => .ok .stop
  | some m =>
    match resolveIdent env "fs" with
    | .error e => .error e
    | .ok _ =>
      let handle := resolveEntry m
      let entry : Option FpPlugin :=
        if truthy handle && tagEq (toStringTag handle) "AsyncFunction"
        then some ⟨handle⟩ else none
      if walkBasename handler k = "handlers"
      then .ok (.collectStop entry)
      else .ok (.collectContinue entry)

/-- The while loop of lines 122-140 run for at most fuel iterations from
index k with accumulator acc (the middlewares array, in push order).
Except.ok none means the fuel ran out with the loop still going. -/
def walkFuel (env : List String) (fsys : FS) (handler : Path) :
    Nat → Nat → List FpPlugin → Except JSError (Option (List FpPlugin))
  | 0, _, _ => .ok none
  | fuel+1, k, acc =>
    match walkIter env fsys handler k with
    | .error e => .error e
    | .ok .stop => .ok (some acc)
    | .ok (.collectStop e) => .ok (some (acc ++ e.toList))
    | .ok (.collectContinue e) => walkFuel env fsys handler fuel (k+1) (acc ++ e.toList)

/-- The full walk for one handler. Because upDir clamps at the root, the
loop state is constant from iteration handler.length on, so fuel
handler.length + 2 reaches the fixed point: a result of Except.ok none
means the loop never exits. -/
def middlewareWalk (env : List String) (fsys : FS) (handler : Path) :
    Except JSError (Option (List FpPlugin)) :=
  walkFuel env fsys handler (handler.length + 2) 1 []

/-- Divergence of the while loop: every fuel bound runs out. -/
def WalkDiverges (env : List String) (fsys : FS) (handler : Path) : Prop :=
  ∀ fuel, walkFuel env fsys handler fuel 1 [] = .ok none

/-- Line 141: middlewares reversed, then each registered on the wrapper
scope in order; the wrapper scope records plugins in register-call order. -/
def registerChain (chain : List FpPlugin) : List FpPlugin :=
  chain.reverse.foldl (fun scope m => scope ++ [m]) []

/-- The method names wrapped at lines 148-150. -/
def interceptedMethods : List String :=
  ["get", "post", "put", "patch", "delete", "options", "head"]

/-- The route options bag as far as the interceptor reads and rewrites it:
only the schema field matters; none models an absent or nullish field. -/
structure RouteOptions where
  schema : Option JObj
deriving DecidableEq

/-- The call forwarded to the real registration primitive at line 173:
originalMethod.call(instance, url, options, route); the route argument is
forwarded untouched and never inspected, so it is omitted here. -/
structure ForwardedCall where
  url : String
  options : RouteOptions
deriving DecidableEq

/-- The schema table of line 147, keyed method ++ url at line 171. -/
abbrev SchemaTable := List (String × JObj)

/-- JavaScript property assignment on the table object: overwrite the
existing key or append a new one in insertion order. -/
def tblInsert (tbl : SchemaTable) (k : String) (v : JObj) : SchemaTable :=
  if (tbl.find? (fun kv => kv.1 == k)).isSome
  then tbl.map (fun kv => if kv.1 == k then (k, v) else kv)
  else tbl ++ [(k, v)]

/-- The second positional argument of an intercepted method call:
an object (typeof object at line 156), a function (line 159), or absent. -/
inductive Arg1 where
  | objArg (o : RouteOptions)
  | fnArg (id : Nat)
  | absent
deriving DecidableEq

/-- Lines 153-161: options is the second argument when it is an object,
else the empty bag. -/
def parseOptions : Arg1 → RouteOptions
  | .objArg o => o
  | _ => ⟨none⟩

/-- The try block of lines 163-168: read override = options.schema or
else the empty object (line 164), evaluate fs for readFileSync, parse the
file, and build the spread with the file contents LAST (line 165). Any
throw inside, an unbound fs or a JSON.parse failure, surfaces as an
Except.error to be caught by the surrounding catch. -/
def tryMerge (env : List String) (options0 : RouteOptions)
    (fileResult : Except Unit JObj) : Except JSError JObj :=
  let override := options0.schema.getD []
  match resolveIdent env "fs" with
  | .error e => .error e
  | .ok _ =>
    match fileResult with
    | .ok fileObj => .ok (spread2 override fileObj)
    | .error _ => .error .thrown

/-- Lines 162-169 after the existsSync guard passed its fs lookup:
when schema.json exists the try block runs and on success replaces
options.schema with the merged object; any failure is swallowed by the
catch of line 166 and options is left untouched. -/
def applySchemaFile (env : List String) (fsys : FS) (hdir : Path)
    (options0 : RouteOptions) : RouteOptions :=
  match fsys.schemaJson hdir with
  | none => options0
  | some fileResult =>
    match tryMerge env options0 fileResult with
    | .ok merged => ⟨some merged⟩
    | .error _ => options0

/-- Lines 170-172: record options.schema in the table under method ++ url
when set; a set schema is an object and objects are truthy. -/
def recordSchema (tbl : SchemaTable) (method url : String)
    (o : RouteOptions) : SchemaTable :=
  match o.schema with
  | some s => tblInsert tbl (method ++ url) s
  | none => tbl

/-- The wrapped method of lines 152-174 for one intercepted call:
parse the arguments (lines 153-161), evaluate fs for the existsSync guard
of line 162 OUTSIDE any try (in the source scope this is where every
intercepted call dies with a ReferenceError), apply the schema-file merge
(lines 162-169), record the schema (lines 170-172), and forward the call
(line 173). -/
def interceptCall (env : List String) (fsys : FS) (hdir : Path)
    (tbl : SchemaTable) (method url : String) (arg1 : Arg1) :
    Except JSError (SchemaTable × ForwardedCall) :=
  let options0 := parseOptions arg1
  match resolveIdent env "fs" with
  | .error e => .error e
  | .ok _ =>
    let options1 := applySchemaFile env fsys hdir options0
    .ok (recordSchema tbl method url options1, ⟨url, options1⟩)

/-- Lines 143-145: handle = route.default or else route, invoked only when
truthy and with Symbol.toStringTag a member of the two-string list. -/
def handlerAccepted (route : JSModule) : Bool :=
  let handle := resolveEntry route
  truthy handle && listIncludesTag ["AsyncFunction", "Function"] (toStringTag handle)

/-!  Concrete fixtures used by witnesses and counterexamples.  -/

/-- An async-function middleware module. -/
def mwModA : JSModule := ⟨.asyncFun 1, .objv 1⟩

/-- The async middleware module sitting in the handlers directory of the
fs3 fixture. -/
def mwMod1 : JSModule := ⟨.asyncFun 21, .objv 21⟩

/-- The async middleware module sitting in the PARENT of the handlers
directory of the fs3 fixture. -/
def mwMod2 : JSModule := ⟨.asyncFun 22, .objv 22⟩

/-- A middleware module whose entry is a plain synchronous function. -/
def mwSync : JSModule := ⟨.syncFun 31, .objv 31⟩

/-- A tree with one middleware file, in the root directory. -/
def fsRootMw : FS :=
  ⟨fun d => if d = [] then some mwModA else none, fun _ => none⟩

/-- A tree with no middleware and no schema files at all. -/
def fsNone : FS := ⟨fun _ => none, fun _ => none⟩

/-- A tree whose only middleware file sits NEXT to the handler file, in
the directory api/users that contains it. -/
def fsSibling : FS :=
  ⟨fun d => if d = ["api", "users"] then some mwModA else none, fun _ => none⟩

/-- A tree whose only middleware file, in directory api, exports a plain
synchronous function. -/
def fsSyncMw : FS :=
  ⟨fun d => if d = ["api"] then some mwSync else none, fun _ => none⟩

/-- A tree with an async middleware file in every directory, the root
included, and no directory named handlers on the relevant branch. -/
def fsEverywhere : FS := ⟨fun _ => some mwModA, fun _ => none⟩

/-- A handler below a directory named handlers: a/handlers/x/index.js. -/
def handlerH : Path := ["a", "handlers", "x", "index.js"]

/-- The tree for handlerH: middleware files in a/handlers (mwMod1) and in
its parent a (mwMod2), nowhere else. -/
def fs3 : FS :=
  ⟨fun d =>
    if d = ["a", "handlers"] then some mwMod1
    else if d = ["a"] then some mwMod2
    else none,
   fun _ => none⟩

/-- The inline schema declared by the handler in the C1 scenario. -/
def inlineA1 : JObj := [("a", .jnum 1)]

/-- The schema.json contents of the C1 scenario. -/
def fileA2B3 : JObj := [("a", .jnum 2), ("b", .jnum 3)]

/-- A schema.json contributing only the key b. -/
def fileB3 : JObj := [("b", .jnum 3)]

/-- A tree whose only schema.json, sibling to the handler in api, parses
to fileA2B3. -/
def fsSchemaA : FS :=
  ⟨fun _ => none, fun d => if d = ["api"] then some (.ok fileA2B3) else none⟩

/-- A tree whose only schema.json, sibling to the handler in api, parses
to fileB3. -/
def fsSchemaB : FS :=
  ⟨fun _ => none, fun d => if d = ["api"] then some (.ok fileB3) else none⟩

/-- A tree whose only schema.json, sibling to the handler in api, holds
invalid JSON. -/
def fsBadJson : FS :=
  ⟨fun _ => none, fun d => if d = ["api"] then some (.error ()) else none⟩

/-!  Helper lemmas.  -/

/-- In the scope the source actually builds, fs is unbound. -/
theorem resolveIdent_fs_unbound :
    resolveIdent moduleBindings "fs" = .error (.referenceError "fs") := by rfl

/-- With fs added to scope, the lookup succeeds. -/
theorem resolveIdent_fs_bound :
    resolveIdent ("fs" :: moduleBindings) "fs" = .ok () := by rfl

end Fastified
namespace Fastified

/-!  Object lookup lemmas for the spread of line 165.  -/

theorem objGet_nil (k : String) : objGet [] k = none := rfl

theorem objGet_cons (k1 : String) (v1 : JVal) (rest : JObj) (k : String) :
    objGet ((k1, v1) :: rest) k = if k1 = k then some v1 else objGet rest k := by
  by_cases h : k1 = k
  · have hb : (k1 == k) = true := by simp [h]
    simp [objGet, List.find?, hb, h]
  · have hb : (k1 == k) = false := by simp [h]
    simp [objGet, List.find?, hb, h]

theorem objGet_append (l1 l2 : JObj) (k : String) :
    objGet (l1 ++ l2) k = (objGet l1 k).or (objGet l2 k) := by
  induction l1 with
  | nil => simp [objGet_nil]
  | cons hd tl ih =>
    obtain ⟨k1, v1⟩ := hd
    by_cases h : k1 = k
    · simp [objGet_cons, h]
    · simp [objGet_cons, h, ih]

theorem objGet_map_override (a b : JObj) (k : String) :
    objGet (a.map (fun kv => (kv.1, (objGet b kv.1).getD kv.2))) k
      = (objGet a k).map (fun va => (objGet b k).getD va) := by
  induction a with
  | nil => simp [objGet_nil]
  | cons hd tl ih =>
    obtain ⟨k1, v1⟩ := hd
    by_cases h : k1 = k
    · subst h; simp [objGet_cons, ih]
    · simp [objGet_cons, h, ih]

theorem objGet_filter_absent (a b : JObj) (k : String) :
    objGet (b.filter (fun kv => (objGet a kv.1).isNone)) k
      = if (objGet a k).isNone then objGet b k else none := by
  induction b with
  | nil => simp [objGet_nil]
  | cons hd tl ih =>
    obtain ⟨kb, vb⟩ := hd
    by_cases hp : (objGet a kb).isNone
    · by_cases hk : kb = k
      · subst hk; simp [List.filter_cons, hp, objGet_cons]
      · simp [List.filter_cons, hp, objGet_cons, hk, ih]
    · by_cases hk : kb = k
      · subst hk
        simp only [List.filter_cons]
        rw [if_neg (by simpa using hp)]
        rw [ih]
        simp [hp]
      · simp [List.filter_cons, hp, objGet_cons, hk, ih]

theorem objGet_spread2 (a b : JObj) (k : String) :
    objGet (spread2 a b) k = (objGet b k).or (objGet a k) := by
  unfold spread2
  rw [objGet_append, objGet_map_override, objGet_filter_absent]
  cases ha : objGet a k with
  | none => cases hb : objGet b k <;> simp
  | some va => cases hb : objGet b k <;> simp [hb]

theorem objGet_spread2_right (a b : JObj) (k : String) (v : JVal)
    (hb : objGet b k = some v) : objGet (spread2 a b) k = some v := by
  rw [objGet_spread2, hb]; rfl

/-!  Path arithmetic lemmas for lines 123-124.  -/

theorem upDir_one (p : Path) : upDir p 1 = parentDir p := by
  unfold upDir parentDir
  rw [List.dropLast_eq_take]

theorem upDir_succ (p : Path) (k : Nat) : upDir p (k+1) = parentDir (upDir p k) := by
  unfold upDir parentDir
  rw [List.dropLast_eq_take, List.length_take, List.take_take]
  congr 1
  omega

theorem lookupDir_one (handler : Path) :
    lookupDir handler 1 = parentDir (parentDir handler) := by
  unfold lookupDir; exact upDir_one (parentDir handler)

theorem lookupDir_succ (handler : Path) (k : Nat) :
    lookupDir handler (k+1) = parentDir (lookupDir handler k) := by
  unfold lookupDir; exact upDir_succ (parentDir handler) k

/-!  Walk lemmas for the while loop of lines 122-140.  -/

theorem walkIter_halts_at_boundary (env : List String) (fsys : FS)
    (handler : Path) (j : Nat) (hj : walkBasename handler j = "handlers") :
    ∀ e, walkIter env fsys handler j ≠ .ok (.collectContinue e) := by
  intro e
  unfold walkIter
  cases hm : fsys.middlewareAt (lookupDir handler j) with
  | none => simp
  | some m =>
    cases hr : resolveIdent env "fs" with
    | error err => simp
    | ok u => simp [hj]

theorem walkIter_continue_found (env : List String) (fsys : FS)
    (handler : Path) (k : Nat) (e : Option FpPlugin)
    (h : walkIter env fsys handler k = .ok (.collectContinue e)) :
    (fsys.middlewareAt (lookupDir handler k)).isSome = true := by
  cases hm : fsys.middlewareAt (lookupDir handler k) with
  | none => unfold walkIter at h; rw [hm] at h; simp at h
  | some m => rfl

theorem walkFuel_halt_ext (env : List String) (fsys : FS) (handler : Path)
    (j : Nat)
    (hhalt : ∀ e, walkIter env fsys handler j ≠ .ok (.collectContinue e)) :
    ∀ fuel k acc, k ≤ j → j - k < fuel → ∀ d,
      walkFuel env fsys handler (fuel + d) k acc
        = walkFuel env fsys handler fuel k acc := by
  intro fuel
  induction fuel with
  | zero => intro k acc hk hlt; omega
  | succ f ih =>
    intro k acc hk hlt d
    have hfd : f + 1 + d = (f + d) + 1 := by omega
    rw [hfd]
    simp only [walkFuel]
    cases hit : walkIter env fsys handler k with
    | error e => simp
    | ok outcome =>
      cases outcome with
      | stop => simp
      | collectStop e => simp
      | collectContinue e =>
        have hkj : k ≠ j := fun hh => hhalt e (hh ▸ hit)
        have hk1 : k + 1 ≤ j := by omega
        have hlt1 : j - (k + 1) < f := by omega
        exact ih (k + 1) (acc ++ e.toList) hk1 hlt1 d

/-!  Claim theorems.  -/

/-- C1 counterexample: at the concrete input of the claim, a handler
declaring inline schema with a equal 1 against a sibling schema.json
parsing to a equal 2, b equal 3, the registration (run with fs bound, the
evidently intended scope) attaches the merge in which the FILE value wins
the conflict: the attached schema maps a to 2, which is not extensionally
equal to the object the claim requires, where a maps to 1. -/
theorem C1_merge_counterexample :
    interceptCall ("fs" :: moduleBindings) fsSchemaA ["api"] [] "get" "/x"
        (.objArg ⟨some inlineA1⟩)
      = .ok ([("get/x", [("a", .jnum 2), ("b", .jnum 3)])],
             ⟨"/x", ⟨some [("a", .jnum 2), ("b", .jnum 3)]⟩⟩) ∧
    ¬ objEquiv [("a", .jnum 2), ("b", .jnum 3)] [("a", .jnum 1), ("b", .jnum 3)] := by
  constructor
  · rfl
  · intro h
    exact absurd (h "a") (by decide)

/-- C1 amended: whenever the sibling schema.json parses to an object, the
schema attached by the interceptor (run with fs bound) is the shallow
merge of line 165 in which FILE-declared keys take precedence over
handler-declared keys on conflict, and the merged result is recorded
under method ++ url; in particular every key the file declares keeps the
file value in the merge. -/
theorem C1_merge_file_wins (fsys : FS) (hdir : Path) (tbl : SchemaTable)
    (method url : String) (inl fileObj : JObj)
    (hfile : fsys.schemaJson hdir = some (.ok fileObj)) :
    interceptCall ("fs" :: moduleBindings) fsys hdir tbl method url
        (.objArg ⟨some inl⟩)
      = .ok (tblInsert tbl (method ++ url) (spread2 inl fileObj),
             ⟨url, ⟨some (spread2 inl fileObj)⟩⟩) ∧
    ∀ k v, objGet fileObj k = some v → objGet (spread2 inl fileObj) k = some v := by
  constructor
  · unfold interceptCall
    rw [resolveIdent_fs_bound]
    unfold applySchemaFile
    rw [hfile]
    unfold tryMerge
    rw [resolveIdent_fs_bound]
    rfl
  · intro k v hv
    exact objGet_spread2_right inl fileObj k v hv

/-- C1 witness: the amended merge theorem applied at a concrete
registration against fsSchemaA. -/
theorem C1_merge_file_wins_witness :
    interceptCall ("fs" :: moduleBindings) fsSchemaA ["api"] [] "post" "/w"
        (.objArg ⟨some inlineA1⟩)
      = .ok (tblInsert [] ("post" ++ "/w") (spread2 inlineA1 fileA2B3),
             ⟨"/w", ⟨some (spread2 inlineA1 fileA2B3)⟩⟩) :=
  (C1_merge_file_wins fsSchemaA ["api"] [] "post" "/w" inlineA1 fileA2B3 (by rfl)).1

/-- C2 counterexample: for the handler api/users/index.js the first
middleware lookup of line 124 happens in api, not in the directory
api/users that contains the handler file; consequently a middleware file
sitting next to the handler is never collected (the walk of the
fsSibling tree, run with fs bound, ends with an empty chain). -/
theorem C2_lookup_counterexample :
    lookupDir ["api", "users", "index.js"] 1 = ["api"] ∧
    lookupDir ["api", "users", "index.js"] 1
      ≠ parentDir ["api", "users", "index.js"] ∧
    middlewareWalk ("fs" :: moduleBindings) fsSibling ["api", "users", "index.js"]
      = .ok (some []) := by
  refine ⟨by rfl, by decide, by rfl⟩

/-- C2 amended: the first lookup of the walk is performed in the PARENT of
the directory containing the handler file (two levels above the handler
file), and each subsequent step looks exactly one directory level higher,
path resolution clamping at the filesystem root. -/
theorem C2_lookup_geometry (handler : Path) (k : Nat) :
    lookupDir handler 1 = parentDir (parentDir handler) ∧
    lookupDir handler (k + 1) = parentDir (lookupDir handler k) :=
  ⟨lookupDir_one handler, lookupDir_succ handler k⟩

/-- C3 counterexample: for the handler a/handlers/x/index.js over the fs3
tree (async middleware files in a/handlers and in a), the walk run with
fs bound collects BOTH middlewares: the second collected entry is the
entry point of mwMod2, the module that fs3 places only in directory a,
which is the parent of a/handlers, the first ancestor named handlers
(reached by the basename check at step 2) — a middleware strictly above
the boundary is collected into the chain. -/
theorem C3_boundary_counterexample :
    middlewareWalk ("fs" :: moduleBindings) fs3 handlerH
      = .ok (some [⟨.asyncFun 21⟩, ⟨.asyncFun 22⟩]) ∧
    fs3.middlewareAt ["a"] = some mwMod2 ∧
    resolveEntry mwMod2 = .asyncFun 22 ∧
    walkBasename handlerH 1 ≠ "handlers" ∧
    walkBasename handlerH 2 = "handlers" ∧
    upDir handlerH 2 = ["a", "handlers"] ∧
    lookupDir handlerH 2 = ["a"] ∧
    parentDir ["a", "handlers"] = ["a"] := by
  refine ⟨by rfl, by rfl, by rfl, by decide, by rfl, by rfl, by rfl, by rfl⟩

/-- C3 amended: the walk stops no later than the iteration j at which the
basename of line 123 (the ancestor one level BELOW the lookup directory of
line 124) equals handlers: running the loop with any fuel at least j gives
the same result as fuel exactly j, so no lookup strictly above the parent
of that handlers ancestor is ever performed and nothing above that parent
is ever collected; the middleware of the parent itself, inspected at
iteration j before the boundary check, IS still collected. Below the
boundary the walk also stops at the first level whose lookup directory
lacks a middleware file, and there the boundary check is skipped. This
holds for every identifier scope, the unbound source scope included. -/
theorem C3_boundary_amended (env : List String) (fsys : FS) (handler : Path)
    (j fuel : Nat) (hj1 : 1 ≤ j)
    (hj2 : walkBasename handler j = "handlers") (hfuel : j ≤ fuel) :
    walkFuel env fsys handler fuel 1 [] = walkFuel env fsys handler j 1 [] ∧
    ∀ k acc f, fsys.middlewareAt (lookupDir handler k) = none →
      walkFuel env fsys handler (f + 1) k acc = .ok (some acc) := by
  constructor
  · have hhalt := walkIter_halts_at_boundary env fsys handler j hj2
    have hext := walkFuel_halt_ext env fsys handler j hhalt j 1 []
      hj1 (by omega) (fuel - j)
    have hsum : j + (fuel - j) = fuel := by omega
    rw [hsum] at hext
    exact hext
  · intro k acc f hnone
    have hstop : walkIter env fsys handler k = .ok .stop := by
      unfold walkIter; rw [hnone]
    simp only [walkFuel, hstop]

/-- C3 witness: the amended boundary theorem applied at the concrete fs3
tree, with the boundary basename reached at step 2 and fuel 6. -/
theorem C3_boundary_witness :
    walkFuel ("fs" :: moduleBindings) fs3 handlerH 6 1 []
      = walkFuel ("fs" :: moduleBindings) fs3 handlerH 2 1 [] :=
  (C3_boundary_amended ("fs" :: moduleBindings) fs3 handlerH 2 6
    (by omega) (by rfl) (by omega)).1

/-- C4: the entry point resolution of lines 143-145 accepts a value only
when its Symbol.toStringTag is the string AsyncFunction or the string
Function; a plain synchronous function carries NO Symbol.toStringTag, so
it is rejected and the handler is never invoked, while an async function
is accepted — the code contradicts the intent visible in its own accept
list, which names Function although no function value ever carries that
tag. -/
theorem C4_sync_handler_skipped :
    handlerAccepted ⟨.syncFun 7, .objv 7⟩ = false ∧
    toStringTag (.syncFun 7) = none ∧
    handlerAccepted ⟨.asyncFun 7, .objv 7⟩ = true := by
  refine ⟨by rfl, by rfl, by rfl⟩

/-- C5: the module scope of server.js never binds fs, yet line 126
evaluates fs on every middleware file found by the walk and line 162
evaluates fs at the start of every intercepted method registration
(outside any try), so in the source scope every such evaluation aborts
with a ReferenceError instead of completing registration. -/
theorem C5_fs_never_bound :
    "fs" ∉ moduleBindings ∧
    (∀ (fsys : FS) (handler : Path) (k : Nat),
        (fsys.middlewareAt (lookupDir handler k)).isSome = true →
        walkIter moduleBindings fsys handler k
          = .error (.referenceError "fs")) ∧
    (∀ (fsys : FS) (hdir : Path) (tbl : SchemaTable) (method url : String)
        (arg1 : Arg1),
        interceptCall moduleBindings fsys hdir tbl method url arg1
          = .error (.referenceError "fs")) := by
  refine ⟨by decide, ?_, ?_⟩
  · intro fsys handler k hfound
    unfold walkIter
    cases hm : fsys.middlewareAt (lookupDir handler k) with
    | none => rw [hm] at hfound; simp at hfound
    | some m => rw [resolveIdent_fs_unbound]
  · intro fsys hdir tbl method url arg1
    unfold interceptCall
    rw [resolveIdent_fs_unbound]

/-- C5 witness: the unbound-fs theorem applied to a concrete tree with a
middleware file at the root and to a concrete intercepted call. -/
theorem C5_fs_never_bound_witness :
    walkIter moduleBindings fsRootMw ["api", "index.js"] 1
      = .error (.referenceError "fs") ∧
    interceptCall moduleBindings fsRootMw ["api"] [] "get" "/" .absent
      = .error (.referenceError "fs") :=
  ⟨C5_fs_never_bound.2.1 fsRootMw ["api", "index.js"] 1 (by rfl),
   C5_fs_never_bound.2.2 fsRootMw ["api"] [] "get" "/" .absent⟩

/-- C6: at a registration whose sibling schema.json holds invalid JSON,
the code as written throws a ReferenceError at the fs.existsSync guard of
line 162 before reaching the parse, so the registration does NOT complete;
with fs bound as evidently intended, the claim holds: the parse failure
is swallowed by the catch of line 166, no schema-file contribution is
applied, and the route is forwarded with exactly the inline schema the
handler declared. -/
theorem C6_badjson_behavior :
    interceptCall moduleBindings fsBadJson ["api"] [] "get" "/x"
        (.objArg ⟨some inlineA1⟩)
      = .error (.referenceError "fs") ∧
    interceptCall ("fs" :: moduleBindings) fsBadJson ["api"] [] "get" "/x"
        (.objArg ⟨some inlineA1⟩)
      = .ok ([("get/x", inlineA1)], ⟨"/x", ⟨some inlineA1⟩⟩) :=
  ⟨by rfl, by rfl⟩

/-- C7: when the walk finds a middleware file, the code as written throws
a ReferenceError at the fs.existsSync guard of line 126 before the export
is ever inspected, aborting that handler registration; with fs bound as
evidently intended, the claim holds: a middleware exporting a plain
synchronous function fails the tag check of line 130 (its
Symbol.toStringTag is undefined, not AsyncFunction), is never appended to
the chain, and the walk and registration complete without error. -/
theorem C7_sync_middleware_behavior :
    middlewareWalk moduleBindings fsSyncMw ["api", "users", "index.js"]
      = .error (.referenceError "fs") ∧
    middlewareWalk ("fs" :: moduleBindings) fsSyncMw ["api", "users", "index.js"]
      = .ok (some []) ∧
    tagEq (toStringTag (resolveEntry mwSync)) "AsyncFunction" = false :=
  ⟨by rfl, by rfl, by rfl⟩

/-- C8: for every completed walk, line 141 registers the collected
middlewares into the wrapper scope in exactly the reverse of collection
order, so the first registered plugin is the last collected one, the
farthest-ancestor middleware. -/
theorem C8_register_reverse (env : List String) (fsys : FS) (handler : Path)
    (chain : List FpPlugin)
    (_hw : middlewareWalk env fsys handler = .ok (some chain)) :
    registerChain chain = chain.reverse ∧
    (registerChain chain).head? = chain.getLast? := by
  have key : ∀ (l init : List FpPlugin),
      l.foldl (fun scope m => scope ++ [m]) init = init ++ l := by
    intro l
    induction l with
    | nil => intro init; simp
    | cons hd tl ih => intro init; simp [List.foldl_cons, ih]
  constructor
  · unfold registerChain; rw [key]; simp
  · unfold registerChain; rw [key]; simp [List.head?_reverse]

/-- C8 witness: the reversal theorem applied to the two-element chain the
walk produces on the fs3 tree. -/
theorem C8_register_reverse_witness :
    registerChain [⟨.asyncFun 21⟩, ⟨.asyncFun 22⟩]
      = [⟨.asyncFun 22⟩, ⟨.asyncFun 21⟩] ∧
    (registerChain [⟨.asyncFun 21⟩, ⟨.asyncFun 22⟩]).head?
      = some ⟨.asyncFun 22⟩ := by
  have h := C8_register_reverse ("fs" :: moduleBindings) fs3 handlerH
    [⟨.asyncFun 21⟩, ⟨.asyncFun 22⟩] (by rfl)
  exact ⟨h.1.trans (by rfl), h.2.trans (by rfl)⟩

/-- C9 counterexample: a registration declaring no inline schema, run with
fs bound against a sibling schema.json parsing to the object fileB3, DOES
record a SchemaTable entry and DOES attach a schema (the file contents) to
the forwarded options, against the claim. -/
theorem C9_noschema_counterexample :
    interceptCall ("fs" :: moduleBindings) fsSchemaB ["api"] [] "get" "/y"
        (.objArg ⟨none⟩)
      = .ok ([("get/y", fileB3)], ⟨"/y", ⟨some fileB3⟩⟩) := by rfl

/-- C9 amended: when the handler declares no inline schema AND the sibling
schema.json is absent or fails to parse, no SchemaTable entry is recorded
and no schema is attached to the forwarded options (interceptor run with
fs bound, the evidently intended scope). -/
theorem C9_noschema_amended (fsys : FS) (hdir : Path) (tbl : SchemaTable)
    (method url : String) (arg1 : Arg1)
    (hopt : (parseOptions arg1).schema = none)
    (hfile : fsys.schemaJson hdir = none
      ∨ fsys.schemaJson hdir = some (.error ())) :
    interceptCall ("fs" :: moduleBindings) fsys hdir tbl method url arg1
      = .ok (tbl, ⟨url, ⟨none⟩⟩) := by
  have h0 : parseOptions arg1 = ⟨none⟩ := by
    cases hpo : parseOptions arg1 with
    | mk s =>
      rw [hpo] at hopt
      have hs : s = none := hopt
      rw [hs]
  unfold interceptCall
  rw [h0, resolveIdent_fs_bound]
  unfold applySchemaFile
  cases hfile with
  | inl h => rw [h]; rfl
  | inr h =>
    rw [h]
    unfold tryMerge
    rw [resolveIdent_fs_bound]
    rfl

/-- C9 witness: the amended theorem applied at a concrete registration
with no options argument over a tree with no schema.json at all. -/
theorem C9_noschema_witness :
    interceptCall ("fs" :: moduleBindings) fsNone ["api"] [] "get" "/z" .absent
      = .ok ([], ⟨"/z", ⟨none⟩⟩) :=
  C9_noschema_amended fsNone ["api"] [] "get" "/z" .absent (by rfl)
    (Or.inl (by rfl))

/-- C10 counterexample: over the fsEverywhere tree, which has an async
middleware file in every directory the root included, the walk for the
handler api/index.js (run with fs bound) never exits: path resolution
clamps at the root, so from the second iteration on the loop re-inspects
the root forever — every fuel bound runs out. -/
theorem C10_diverges_counterexample :
    WalkDiverges ("fs" :: moduleBindings) fsEverywhere ["api", "index.js"] := by
  have hiter : ∀ k, walkIter ("fs" :: moduleBindings) fsEverywhere
      ["api", "index.js"] k = .ok (.collectContinue (some ⟨.asyncFun 1⟩)) := by
    intro k
    have hbase : walkBasename ["api", "index.js"] k ≠ "handlers" := by
      unfold walkBasename upDir dirBasename
      match k with
      | 0 => decide
      | 1 => decide
      | (n + 2) =>
        have h2 : (["api", "index.js"] : Path).length - (n + 2) = 0 := by
          show 2 - (n + 2) = 0
          omega
        rw [h2]
        decide
    unfold walkIter
    simp only [fsEverywhere, resolveIdent_fs_bound]
    rw [if_neg hbase]
    rfl
  intro fuel
  suffices key : ∀ f k acc, walkFuel ("fs" :: moduleBindings) fsEverywhere
      ["api", "index.js"] f k acc = .ok none from key fuel 1 []
  intro f
  induction f with
  | zero => intro k acc; rfl
  | succ n ih =>
    intro k acc
    simp only [walkFuel, hiter]
    exact ih (k + 1) (acc ++ (some ⟨.asyncFun 1⟩ : Option FpPlugin).toList)

/-- C10 amended: the walk is NOT finite over an arbitrary tree (see the
divergence counterexample), but it does perform only finitely many
iterations whenever the filesystem root directory contains no middleware
file: running with the fixed fuel handler.length + 2 the loop exits,
normally or with an error, before the fuel runs out. This holds for every
identifier scope, the unbound source scope included. -/
theorem C10_terminates_amended (env : List String) (fsys : FS)
    (handler : Path) (hroot : fsys.middlewareAt [] = none) :
    middlewareWalk env fsys handler ≠ .ok none := by
  have key : ∀ fuel k acc, 1 ≤ fuel → handler.length + 1 ≤ k + fuel →
      walkFuel env fsys handler fuel k acc ≠ .ok none := by
    intro fuel
    induction fuel with
    | zero => intro k acc h1 _; omega
    | succ f ih =>
      intro k acc _ hbound
      simp only [walkFuel]
      cases hit : walkIter env fsys handler k with
      | error e => simp
      | ok outcome =>
        cases outcome with
        | stop => simp
        | collectStop e => simp
        | collectContinue e =>
          have hfound := walkIter_continue_found env fsys handler k e hit
          have hne : lookupDir handler k ≠ [] := by
            intro h0
            rw [h0, hroot] at hfound
            simp at hfound
          have hlen2 : (parentDir handler).length - k ≠ 0 := by
            intro h0
            apply hne
            unfold lookupDir upDir
            rw [h0]
            rfl
          have hlh : (parentDir handler).length = handler.length - 1 :=
            List.length_dropLast handler
          exact ih (k + 1) (acc ++ e.toList) (by omega) (by omega)
  exact key (handler.length + 2) 1 [] (by omega) (by omega)

/-- C10 witness: the termination theorem applied to a tree with no
middleware files at all. -/
theorem C10_terminates_witness :
    middlewareWalk moduleBindings fsNone ["api", "users", "index.js"]
      ≠ .ok none :=
  C10_terminates_amended moduleBindings fsNone ["api", "users", "index.js"]
    (by rfl)

end Fastified
